import Mathlib

/-!
Verification of the VisualPIC data-access layer.

This file gives a shallow embedding of the two core source modules

  * visualpic/data_handling/particle_species.py  (class ParticleSpecies)
  * VisualPIC/DataReading/folder_scanners.py      (class OsirisFolderScanner)

and proves the specified properties about them.

Modelling conventions:

  * Python strings are Lean Strings; string primitives that the source
    relies on (str.endswith, str.replace, slicing, int()) are re-implemented
    here over List Char with Python's semantics, because they must be
    executable by the kernel.
  * Python dicts are association lists (List (String × _)) in insertion
    order; lookup finds the first matching key, as dict lookup does for the
    duplicate-free dicts the source builds.
  * Numeric particle arrays are opaque payloads; they are modelled as
    List Int (their contents are never inspected by the code under
    verification, only moved around).
  * Python exceptions become an error type VPError whose constructors are
    named after the specification's error taxonomy and carry exactly the
    data that the corresponding Python error message carries.
  * External collaborators (the particle data reader and the unit
    converter) are function-valued fields of the species, exactly as the
    Python constructor stores the collaborator objects.
  * np.argsort is modelled by its documented contract: it yields some
    permutation of the index range that sorts the keys.  The default kind
    (quicksort/introsort) is documented as not stable, so the permutation
    is a parameter constrained by the predicate isArgsortOf rather than a
    fixed function.
-/

/-! ## Python dictionary primitives (insertion-ordered association lists) -/

/-- Lookup in a Python dict modelled as an association list: first match wins. -/
def dictLookup {α : Type} (m : List (String × α)) (k : String) : Option α :=
  (m.find? (fun p => p.1 == k)).map Prod.snd

/-- Python `m[k] = v`: overwrite the value at an existing key keeping its
position, or append a new binding at the end (Python dicts hold each key at
most once, so updating the first occurrence is the dict semantics). -/
def dictSet {α : Type} : List (String × α) → String → α → List (String × α)
  | [], k, v => [(k, v)]
  | p :: rest, k, v => if p.1 == k then (k, v) :: rest else p :: dictSet rest k v

/-- Keys of a dict, in order. -/
def dictKeys {α : Type} (m : List (String × α)) : List String :=
  m.map Prod.fst

/-- Python `{**a, **b}`: keys of `a` keep their positions (values overridden
by `b` where present), then the keys of `b` not in `a` follow in order. -/
def pyDictMerge {α : Type} (a b : List (String × α)) : List (String × α) :=
  a.map (fun p => match dictLookup b p.1 with | some v => (p.1, v) | none => p) ++
    b.filter (fun p => (dictLookup a p.1).isNone)

/-! ## Python string primitives -/

/-- Bool test that `pat` is an initial segment of `l`. -/
def startsWithPat : List Char → List Char → Bool
  | [], _ => true
  | _ :: _, [] => false
  | p :: ps, c :: cs => p == c && startsWithPat ps cs

/-- Python `s.endswith(suf)`. -/
def pyEndsWith (s suf : String) : Bool :=
  suf.data.isSuffixOf s.data

/-- Fuel-driven worker for `pyReplace`; the fuel is the length of the input,
which bounds the number of steps since each step consumes at least one
character of the input (the pattern is nonempty in the worker). -/
def pyReplaceAux (pat rep : List Char) : Nat → List Char → List Char
  | _, [] => []
  | 0, l => l
  | fuel + 1, c :: rest =>
    if startsWithPat pat (c :: rest) then
      rep ++ pyReplaceAux pat rep fuel ((c :: rest).drop pat.length)
    else
      c :: pyReplaceAux pat rep fuel rest

/-- Python `s.replace(pat, rep)`: replace every non-overlapping occurrence of
`pat`, scanning left to right.  For the empty pattern Python inserts `rep`
between all characters and at both ends; the source only ever uses the
nonempty pattern "-savg". -/
def pyReplace (s pat rep : String) : String :=
  match pat.data with
  | [] => ⟨rep.data ++ (s.data.map (fun c => c :: rep.data)).flatten⟩
  | _ :: _ => ⟨pyReplaceAux pat.data rep.data s.data.length s.data⟩

/-- Python slice `s[-a:-b]` for `a b : Nat`: start index `max(len - a, 0)`,
stop index `max(len - b, 0)`; Nat subtraction performs exactly that clipping. -/
def pySliceNeg (s : String) (a b : Nat) : String :=
  ⟨(s.data.drop (s.data.length - a)).take ((s.data.length - b) - (s.data.length - a))⟩

/-- ASCII whitespace accepted (and stripped) by Python `int()`. -/
def isPySpace (c : Char) : Bool :=
  c == ' ' || c == '\t' || c == '\n' || c == '\r'

/-- Value of an ASCII decimal digit. -/
def digitVal (c : Char) : Option Nat :=
  if '0' ≤ c ∧ c ≤ '9' then some (c.toNat - '0'.toNat) else none

/-- Digit-sequence tail of Python `int()` parsing: decimal digits with single
underscores allowed between digits (PEP 515), accumulated into `acc`. -/
def pyIntDigitsLoop : List Char → Nat → Option Nat
  | [], acc => some acc
  | c :: rest, acc =>
    match digitVal c with
    | some d => pyIntDigitsLoop rest (acc * 10 + d)
    | none =>
      if c == '_' then
        match rest with
        | c2 :: rest2 =>
          match digitVal c2 with
          | some d => pyIntDigitsLoop rest2 (acc * 10 + d)
          | none => none
        | [] => none
      else none

/-- Unsigned body of Python `int()`: must start with a digit. -/
def pyIntBody : List Char → Option Nat
  | [] => none
  | c :: rest =>
    match digitVal c with
    | some d => pyIntDigitsLoop rest d
    | none => none

/-- Strip leading and trailing whitespace. -/
def pyStrip (cs : List Char) : List Char :=
  ((cs.dropWhile isPySpace).reverse.dropWhile isPySpace).reverse

/-- Python `int(s)` on an ASCII decimal literal: strip whitespace, optional
sign, then digits (with PEP 515 underscores); `none` models the ValueError
that a non-numeric token raises. -/
def pyInt (s : String) : Option Int :=
  match pyStrip s.data with
  | '-' :: rest => (pyIntBody rest).map (fun n => -(n : Int))
  | '+' :: rest => (pyIntBody rest).map (fun n => (n : Int))
  | cs => (pyIntBody cs).map (fun n => (n : Int))

/-! ## Error taxonomy

The source raises ValueError/IndexError/KeyError with distinguishing
messages; the specification names these error classes.  Each constructor
carries the data interpolated into the corresponding Python message. -/

inductive VPError where
  /-- ParticleSpecies.get_data, lines 100-102: components/data-units length
  mismatch; the message reports both lengths. -/
  | mismatchedLength (len_comp len_units : Nat)
  /-- ParticleSpecies.get_data, lines 123-125: unknown component; the message
  names the component and enumerates the available components. -/
  | unknownComponent (component : String) (available : List String)
  /-- ParticleSpecies._get_file_path, line 149: `list.index` misses. -/
  | timeStepNotFound (time_step : Int)
  /-- Python IndexError from positional indexing. -/
  | indexError
  /-- Python KeyError from a dict lookup. -/
  | keyError (key : String)
  /-- OsirisFolderScanner._get_standard_visualpic_name, line 91. -/
  | unknownFieldName (name : String)
  /-- Registry lookup miss in get_definition (spec section 4.3). -/
  | unknownDerivedQuantity (name : String)
  /-- int() failure on a filename's time-step token. -/
  | unparseableTimeStep (file : String)
  deriving DecidableEq

/-- Decidable equality of Except results, so that concrete runs of the
embedded functions can be checked by evaluation. -/
instance exceptDecEq {ε α : Type} [DecidableEq ε] [DecidableEq α] :
    DecidableEq (Except ε α) := fun x y =>
  match x, y with
  | Except.error a, Except.error b =>
    if h : a = b then Decidable.isTrue (by rw [h])
    else Decidable.isFalse (by intro hc; injection hc with h2; exact h h2)
  | Except.error _, Except.ok _ => Decidable.isFalse (by intro hc; exact Except.noConfusion hc)
  | Except.ok _, Except.error _ => Decidable.isFalse (by intro hc; exact Except.noConfusion hc)
  | Except.ok a, Except.ok b =>
    if h : a = b then Decidable.isTrue (by rw [h])
    else Decidable.isFalse (by intro hc; injection hc with h2; exact h h2)

/-! ## OsirisFolderScanner (folder_scanners.py) -/

/-- Lookup table of `_get_standard_visualpic_name` (lines 81-87), in source
order. -/
def name_relations : List (String × String) :=
  [("e1", "Ez"), ("e2", "Ex"), ("e3", "Ey"),
   ("b1", "Bz"), ("b2", "Bx"), ("b3", "By"),
   ("charge", "rho")]

/-- OsirisFolderScanner._get_osiris_field_name (lines 93-94):
`field_folder_name.replace('-savg', '')`. -/
def get_osiris_field_name (field_folder_name : String) : String :=
  pyReplace field_folder_name "-savg" ""

/-- OsirisFolderScanner._get_standard_visualpic_name (lines 80-91): table
lookup, ValueError ("Unknown data name ...") on a miss. -/
def get_standard_visualpic_name (osiris_name : String) : Except VPError String :=
  match dictLookup name_relations osiris_name with
  | some v => Except.ok v
  | none => Except.error (VPError.unknownFieldName osiris_name)

/-- Reading of claim C7's words, for comparison with the source: strip one
trailing "-savg" suffix if present (rather than replacing every occurrence). -/
def strip_decoration_suffix_claim (n : String) : String :=
  if pyEndsWith n "-savg" then ⟨n.data.take (n.data.length - 5)⟩ else n

/-- Reading of claim C7's words, for comparison with the source: map the
suffix-stripped name through the fixed table. -/
def standard_name_claim (n : String) : Except VPError String :=
  match dictLookup name_relations (strip_decoration_suffix_claim n) with
  | some v => Except.ok v
  | none => Except.error (VPError.unknownFieldName (strip_decoration_suffix_claim n))

/-- Python `os.path.join(folder, file)` for a relative `file`. -/
def osPathJoin (folder file : String) : String :=
  folder ++ "/" ++ file

/-- Lines 97-101 of _get_files_and_timesteps: keep the files with the ".h5"
extension, in listing order, joined onto the folder path. -/
def h5Files (field_folder_path : String) (all_files : List String) : List String :=
  (all_files.filter (fun f => pyEndsWith f ".h5")).map (osPathJoin field_folder_path)

/-- Lines 102-105: parse `int(file[-9:-3])` for each file; a failing parse is
the fatal ValueError of the scan. -/
def parseTimeSteps : List String → Except VPError (List Int)
  | [] => Except.ok []
  | f :: rest =>
    match pyInt (pySliceNeg f 9 3) with
    | none => Except.error (VPError.unparseableTimeStep f)
    | some n =>
      match parseTimeSteps rest with
      | .error e => Except.error e
      | .ok ts => Except.ok (n :: ts)

/-- Application of an index permutation to a list, as numpy fancy indexing
`xs[perm]` does (the theorems only use it with in-range permutations). -/
def applyPerm {α : Type} (xs : List α) (perm : List Nat) (d : α) : List α :=
  perm.map (fun i => xs.getD i d)

/-- Contract of `np.argsort(keys)`: some permutation of the index range that
puts the keys in nondecreasing order.  The default sort kind (quicksort) is
documented as not stable, so no tie-breaking rule is part of the contract. -/
def isArgsortOf (keys : List Int) (perm : List Nat) : Prop :=
  perm.Perm (List.range keys.length) ∧ (perm.map (fun i => keys.getD i 0)).Sorted (· ≤ ·)

/-- OsirisFolderScanner._get_files_and_timesteps (lines 96-109).  The folder
listing `all_files` stands for `os.listdir`, and `perm` for the permutation
np.argsort returns on the parsed time steps (see isArgsortOf).  The source
stores the parsed integers in a float64 array; the values involved are
integers represented exactly, modelled as Int. -/
def get_files_and_timesteps (field_folder_path : String) (all_files : List String)
    (perm : List Nat) : Except VPError (List String × List Int) :=
  let h5_files := h5Files field_folder_path all_files
  match parseTimeSteps h5_files with
  | .error e => Except.error e
  | .ok time_steps => Except.ok (applyPerm h5_files perm "", applyPerm time_steps perm 0)

/-! ## ParticleSpecies (particle_species.py)

Particle data payload: arrays are opaque `List Int` payloads; metadata is a
Python dict of string fields (the code only reads/writes its "units" key). -/

/-- Metadata dictionary of one particle component. -/
abbrev Metadata : Type := List (String × String)

/-- Result dictionary of a particle data query: component name to
(array, metadata), in insertion order. -/
abbrev PDict : Type := List (String × (List Int × List (String × String)))

/-- Derived-quantity definition record, one entry of the registry
(a Python dict with keys name, units, requirements, recipe). -/
structure DataDef where
  name : String
  units : String
  requirements : List String
  recipe : PDict → List Int

/-- Modelled from the spec: the module
visualpic/data_handling/derived_particle_data_definitions.py is not among the
source files; spec section 4.3 describes it as a static registry (a list of
derived-quantity definitions).  Theorems take the registry as a parameter. -/
abbrev Registry : Type := List DataDef

/-- Modelled from the spec: `get_definition(name) -> definition` of the
missing registry module, described in spec section 4.3 as a lookup by name
that fails with UnknownDerivedQuantityError if absent. -/
def get_definition (registry : Registry) (name : String) : Except VPError DataDef :=
  match registry.find? (fun d => d.name == name) with
  | some d => Except.ok d
  | none => Except.error (VPError.unknownDerivedQuantity name)

/-- ParticleSpecies._determine_available_derived_components (lines 192-201):
collect the names of the registry entries whose requirement set is a subset
of the components available in the file. -/
def determine_available_derived_components (registry : Registry)
    (components_in_file : List String) : List String :=
  (registry.filter (fun d => d.requirements.all (fun r => components_in_file.contains r))).map
    (fun d => d.name)

/-- The ParticleSpecies object.  The data reader and unit converter
collaborators are stored as the functions the code calls on them:
`data_reader file_path species_name components_list` models
ParticleReader.read_particle_data, and
`unit_converter data units_dict target_time_units` models
UnitConverter.convert_particle_data_units. -/
structure ParticleSpecies where
  species_name : String
  components_in_file : List String
  derived_components : List String
  timesteps : List Int
  species_files : List String
  data_reader : String → String → List String → PDict
  unit_converter : PDict → List (String × String) → Option String → PDict
  registry : Registry

/-- ParticleSpecies.__init__ (lines 19-58): stores the constructor arguments
and computes derived_components from the registry. -/
def ParticleSpecies.init (species_name : String) (components_in_file : List String)
    (species_timesteps : List Int) (species_files : List String)
    (data_reader : String → String → List String → PDict)
    (unit_converter : PDict → List (String × String) → Option String → PDict)
    (registry : Registry) : ParticleSpecies :=
  { species_name := species_name
    components_in_file := components_in_file
    derived_components := determine_available_derived_components registry components_in_file
    timesteps := species_timesteps
    species_files := species_files
    data_reader := data_reader
    unit_converter := unit_converter
    registry := registry }

/-- ParticleSpecies.get_list_of_available_components (lines 138-145).  The
Python body builds `components_in_file + derived_components`, which allocates
a fresh list, so the subsequent `remove('tag')` cannot touch the attributes;
the returned pair carries the object state after the call to make that frame
condition a statement. -/
def get_list_of_available_components (s : ParticleSpecies)
    (include_tags : Bool := false) : List String × ParticleSpecies :=
  let all_components := s.components_in_file ++ s.derived_components
  let all_components :=
    if include_tags = false ∧ "tag" ∈ all_components then all_components.erase "tag"
    else all_components
  (all_components, s)

/-- Python `list.index` (first occurrence), as used on timesteps.tolist(). -/
def pyListIndex : List Int → Int → Option Nat
  | [], _ => none
  | y :: rest, x => if y = x then some 0 else (pyListIndex rest x).map (· + 1)

/-- ParticleSpecies._get_file_path (lines 147-150): positional lookup of the
time step, ValueError from `list.index` when absent (the spec's
TimeStepNotFoundError), then indexing into species_files. -/
def get_file_path (s : ParticleSpecies) (time_step : Int) : Except VPError String :=
  match pyListIndex s.timesteps time_step with
  | none => Except.error (VPError.timeStepNotFound time_step)
  | some ts_i =>
    match s.species_files.get? ts_i with
    | none => Except.error VPError.indexError
    | some f => Except.ok f

/-- ParticleSpecies._convert_data_units (lines 181-190): identity when no
data units are requested, otherwise one call to the unit converter with
`dict(zip(components_list, data_units))`. -/
def convert_data_units (s : ParticleSpecies) (data : PDict) (components_list : List String)
    (data_units : Option (List String)) (time_units : Option String) : PDict :=
  match data_units with
  | none => data
  | some us => s.unit_converter data (components_list.zip us) time_units

/-- ParticleSpecies._get_file_data (lines 152-159): read from the data
reader, then convert units. -/
def get_file_data (s : ParticleSpecies) (file_path : String) (components_list : List String)
    (data_units : Option (List String)) (time_units : Option String) : PDict :=
  convert_data_units s (s.data_reader file_path s.species_name components_list)
    components_list data_units time_units

/-- Loop body of ParticleSpecies._calculate_derived_data (lines 164-176):
one dict entry per derived name, in request order: look the definition up,
fetch its requirements in 'SI' units, run the recipe, inherit the first
requirement's metadata and overwrite its "units" entry. -/
def derived_entries (s : ParticleSpecies) (file_path : String) (time_units : Option String) :
    List String → Except VPError PDict
  | [] => Except.ok []
  | name :: rest =>
    match get_definition s.registry name with
    | .error e => Except.error e
    | .ok data_def =>
      let required_data_units := List.replicate data_def.requirements.length "SI"
      let required_data :=
        get_file_data s file_path data_def.requirements (some required_data_units) time_units
      let derived_data := data_def.recipe required_data
      match data_def.requirements with
      | [] => Except.error VPError.indexError
      | r0 :: _ =>
        match dictLookup required_data r0 with
        | none => Except.error (VPError.keyError r0)
        | some (_, md) =>
          match derived_entries s file_path time_units rest with
          | .error e => Except.error e
          | .ok restd =>
            Except.ok ((data_def.name, (derived_data, dictSet md "units" data_def.units)) :: restd)

/-- ParticleSpecies._calculate_derived_data (lines 161-179): build the
derived entries, then convert the whole dict to the caller's target units. -/
def calculate_derived_data (s : ParticleSpecies) (file_path : String) (data_list : List String)
    (target_data_units : Option (List String)) (time_units : Option String) :
    Except VPError PDict :=
  match derived_entries s file_path time_units data_list with
  | .error e => Except.error e
  | .ok d => Except.ok (convert_data_units s d data_list target_data_units time_units)

/-- Length precondition check of get_data (lines 95-102): an error exactly
when data units are specified with a length different from the components
list. -/
def lengthCheck (components_list : List String) (data_units : Option (List String)) :
    Option VPError :=
  match data_units with
  | some us =>
    if components_list.length ≠ us.length then
      some (VPError.mismatchedLength components_list.length us.length)
    else none
  | none => none

/-- Components paired with their requested unit (position-wise), the joint
view of components_list and data_units that the partition loop iterates. -/
def pairUnits (components_list : List String) (data_units : Option (List String)) :
    List (String × Option String) :=
  match data_units with
  | none => components_list.map (fun c => (c, none))
  | some us => components_list.zip (us.map some)

/-- Partition loop of get_data (lines 104-125): split into components read
from file and derived components, preserving order and per-item units; the
first name in neither list raises ValueError (the spec's
UnknownComponentError) carrying the available components. -/
def split_comps (s : ParticleSpecies) :
    List (String × Option String) →
      Except VPError (List (String × Option String) × List (String × Option String))
  | [] => Except.ok ([], [])
  | (component, u) :: rest =>
    if component ∈ s.components_in_file then
      match split_comps s rest with
      | .error e => Except.error e
      | .ok (r, d) => Except.ok ((component, u) :: r, d)
    else if component ∈ s.derived_components then
      match split_comps s rest with
      | .error e => Except.error e
      | .ok (r, d) => Except.ok (r, (component, u) :: d)
    else
      Except.error (VPError.unknownComponent component
        (get_list_of_available_components s false).1)

/-- Per-item units of one partition, when units were specified at all
(comp_to_read_units and derived_components_units of the source). -/
def unitsOf (data_units : Option (List String)) (part : List (String × Option String)) :
    Option (List String) :=
  match data_units with
  | none => none
  | some _ => some (part.filterMap Prod.snd)

/-- Validation prefix of get_data (lines 95-125): length check, then the
partition of the components list. -/
def get_data_checks (s : ParticleSpecies) (components_list : List String)
    (data_units : Option (List String)) :
    Except VPError (List (String × Option String) × List (String × Option String)) :=
  match lengthCheck components_list data_units with
  | some e => Except.error e
  | none => split_comps s (pairUnits components_list data_units)

/-- Data-assembly tail of get_data (lines 126-136), given the resolved file
path: read the raw components, compute the derived components, merge. -/
def get_data_core (s : ParticleSpecies)
    (ctr dc : List (String × Option String)) (data_units : Option (List String))
    (time_units : Option String) (file_path : String) : Except VPError PDict :=
  let folder_data :=
    get_file_data s file_path (ctr.map Prod.fst) (unitsOf data_units ctr) time_units
  match calculate_derived_data s file_path (dc.map Prod.fst) (unitsOf data_units dc)
      time_units with
  | .error e => Except.error e
  | .ok derived_data => Except.ok (pyDictMerge folder_data derived_data)

/-- ParticleSpecies.get_data (lines 60-136): validate, partition, resolve the
time step to a file, read raw components, compute derived components, merge. -/
def get_data (s : ParticleSpecies) (time_step : Int) (components_list : List String)
    (data_units : Option (List String) := none) (time_units : Option String := none) :
    Except VPError PDict :=
  match get_data_checks s components_list data_units with
  | .error e => Except.error e
  | .ok (ctr, dc) =>
    match get_file_path s time_step with
    | .error e => Except.error e
    | .ok file_path => get_data_core s ctr dc data_units time_units file_path

/-- get_data with the file resolution replaced by a given file path: the
computation get_data performs once the time step has resolved to
`file_path`.  Used to state that a present time step is resolved to the file
at its positional index. -/
def get_data_resolved (s : ParticleSpecies) (file_path : String)
    (components_list : List String) (data_units : Option (List String))
    (time_units : Option String) : Except VPError PDict :=
  match get_data_checks s components_list data_units with
  | .error e => Except.error e
  | .ok (ctr, dc) => get_data_core s ctr dc data_units time_units file_path

/-- Iterated calls of get_list_of_available_components, threading the object
state, to state that any number of calls leaves the species unchanged. -/
def repeatCalls (include_tags : Bool) : Nat → ParticleSpecies → ParticleSpecies
  | 0, s => s
  | n + 1, s => repeatCalls include_tags n (get_list_of_available_components s include_tags).2

/-! ## Witness fixtures: a concrete registry, collaborators and species -/

/-- Concrete reader for witnesses: every requested component gets a fixed
array and metadata whose units entry is the file's native unit string. -/
def wReader : String → String → List String → PDict :=
  fun _ _ comps => comps.map (fun c => (c, ([42], [("units", "m_e*c")])))

/-- Concrete unit converter for witnesses: leaves the data unchanged. -/
def wConv : PDict → List (String × String) → Option String → PDict :=
  fun data _ _ => data

/-- Concrete recipe for witnesses. -/
def wRecipe : PDict → List Int := fun _ => [7]

/-- Concrete registry for witnesses: one computable definition (gamma needs
px, available) and one uncomputable one (beta_x also needs pz, absent). -/
def wRegistry : Registry :=
  [{ name := "gamma", units := "dimensionless", requirements := ["px"], recipe := wRecipe },
   { name := "beta_x", units := "dimensionless", requirements := ["px", "pz"],
     recipe := wRecipe }]

/-- Concrete species for witnesses. -/
def wSpecies : ParticleSpecies :=
  ParticleSpecies.init "electrons" ["px", "x", "tag"] [10, 20, 30] ["f10", "f20", "f30"]
    wReader wConv wRegistry

/-! ## Helper lemmas -/

theorem dictLookup_nil {α : Type} (k : String) : dictLookup ([] : List (String × α)) k = none :=
  rfl

theorem dictKeys_eq_nil {α : Type} (m : List (String × α)) (h : dictKeys m = []) : m = [] := by
  cases m with
  | nil => rfl
  | cons p rest => simp [dictKeys] at h

theorem pyDictMerge_nil_left {α : Type} (b : List (String × α)) : pyDictMerge [] b = b := by
  simp [pyDictMerge, dictLookup]

theorem pyDictMerge_nil_right {α : Type} (a : List (String × α)) : pyDictMerge a [] = a := by
  simp [pyDictMerge, dictLookup]

theorem dictLookup_dictSet_self {α : Type} (m : List (String × α)) (k : String) (v : α) :
    dictLookup (dictSet m k v) k = some v := by
  induction m with
  | nil => simp [dictSet, dictLookup]
  | cons p rest ih =>
    by_cases hp : p.1 = k
    · simp [dictSet, dictLookup, hp]
    · simp only [dictSet, dictLookup] at ih ⊢
      rw [if_neg (by simpa using hp)]
      simpa [List.find?, (by simpa using hp : (p.1 == k) = false)] using ih

theorem dictLookup_dictSet_ne {α : Type} (m : List (String × α)) (k k' : String) (v : α)
    (h : k' ≠ k) : dictLookup (dictSet m k v) k' = dictLookup m k' := by
  induction m with
  | nil => simp [dictSet, dictLookup, List.find?, (by simpa using (Ne.symm h) : (k == k') = false)]
  | cons p rest ih =>
    by_cases hp : p.1 = k
    · simp only [dictSet]
      rw [if_pos (by simpa using hp)]
      simp [dictLookup, List.find?, (by simpa using (Ne.symm h) : (k == k') = false), hp]
    · simp only [dictSet]
      rw [if_neg (by simpa using hp)]
      by_cases hk' : p.1 = k'
      · simp [dictLookup, List.find?, hk']
      · simp only [dictLookup, List.find?] at ih ⊢
        rw [(by simpa using hk' : (p.1 == k') = false)]
        exact ih

theorem pyListIndex_eq_none_iff (l : List Int) (x : Int) :
    pyListIndex l x = none ↔ x ∉ l := by
  induction l with
  | nil => simp [pyListIndex]
  | cons y rest ih =>
    by_cases hy : y = x
    · simp [pyListIndex, hy]
    · simp [pyListIndex, hy, ih, Ne.symm hy]

theorem pairUnits_map_fst (comps : List String) (du : Option (List String))
    (hlen : ∀ us, du = some us → comps.length = us.length) :
    (pairUnits comps du).map Prod.fst = comps := by
  cases du with
  | none => simp [pairUnits, Function.comp_def]
  | some us =>
    have h := hlen us rfl
    simp [pairUnits, List.map_fst_zip, h.le]

theorem pairUnits_fst_mem (comps : List String) (du : Option (List String))
    (p : String × Option String) (hp : p ∈ pairUnits comps du) : p.1 ∈ comps := by
  cases du with
  | none =>
    simp only [pairUnits] at hp
    obtain ⟨c, hc, rfl⟩ := List.mem_map.mp hp
    exact hc
  | some us =>
    simp only [pairUnits] at hp
    exact (List.of_mem_zip (by exact hp)).1

theorem split_comps_all_raw (s : ParticleSpecies) (pairs : List (String × Option String))
    (h : ∀ p ∈ pairs, p.1 ∈ s.components_in_file) :
    split_comps s pairs = Except.ok (pairs, []) := by
  induction pairs with
  | nil => rfl
  | cons p rest ih =>
    obtain ⟨c, u⟩ := p
    have hc : c ∈ s.components_in_file := h (c, u) (List.mem_cons_self _ _)
    simp [split_comps, hc, ih (fun q hq => h q (List.mem_cons_of_mem _ hq))]

theorem split_comps_ok_of_available (s : ParticleSpecies)
    (pairs : List (String × Option String))
    (h : ∀ p ∈ pairs, p.1 ∈ s.components_in_file ∨ p.1 ∈ s.derived_components) :
    ∃ r d, split_comps s pairs = Except.ok (r, d) := by
  induction pairs with
  | nil => exact ⟨[], [], rfl⟩
  | cons p rest ih =>
    obtain ⟨c, u⟩ := p
    obtain ⟨r, d, hrd⟩ := ih (fun q hq => h q (List.mem_cons_of_mem _ hq))
    rcases h (c, u) (List.mem_cons_self _ _) with hc | hc
    · exact ⟨(c, u) :: r, d, by simp [split_comps, hc, hrd]⟩
    · by_cases hc' : c ∈ s.components_in_file
      · exact ⟨(c, u) :: r, d, by simp [split_comps, hc', hrd]⟩
      · exact ⟨r, (c, u) :: d, by simp [split_comps, hc', hc, hrd]⟩

theorem split_comps_first_unknown (s : ParticleSpecies)
    (pairs : List (String × Option String)) (c : String)
    (h : (pairs.map Prod.fst).find?
        (fun x => !(s.components_in_file.contains x || s.derived_components.contains x)) =
      some c) :
    split_comps s pairs =
      Except.error (VPError.unknownComponent c (get_list_of_available_components s false).1) := by
  induction pairs with
  | nil => simp [List.find?] at h
  | cons p rest ih =>
    obtain ⟨x, u⟩ := p
    simp only [List.map_cons, List.find?] at h
    by_cases hx : x ∈ s.components_in_file ∨ x ∈ s.derived_components
    · have hbeq : (!(s.components_in_file.contains x || s.derived_components.contains x)) =
          false := by
        rcases hx with hx | hx
        · have hc : s.components_in_file.contains x = true := List.elem_iff.mpr hx
          rw [hc]
          rfl
        · have hc : s.derived_components.contains x = true := List.elem_iff.mpr hx
          rw [hc, Bool.or_true]
          rfl
      rw [hbeq] at h
      simp only [split_comps]
      by_cases hraw : x ∈ s.components_in_file
      · rw [if_pos hraw, ih h]
      · have hder : x ∈ s.derived_components := by
          rcases hx with hx' | hx'
          · exact absurd hx' hraw
          · exact hx'
        rw [if_neg hraw, if_pos hder, ih h]
    · push_neg at hx
      have h1 : s.components_in_file.contains x = false :=
        Bool.eq_false_iff.mpr (fun hc => hx.1 (List.elem_iff.mp hc))
      have h2 : s.derived_components.contains x = false :=
        Bool.eq_false_iff.mpr (fun hc => hx.2 (List.elem_iff.mp hc))
      rw [h1, h2] at h
      simp only [Bool.or_self, Bool.not_false, Option.some.injEq] at h
      subst h
      simp only [split_comps]
      rw [if_neg hx.1, if_neg hx.2]

theorem map_getD_range {α : Type} (xs : List α) (d : α) :
    (List.range xs.length).map (fun i => xs.getD i d) = xs := by
  induction xs with
  | nil => rfl
  | cons x rest ih =>
    rw [List.length_cons, List.range_succ_eq_map, List.map_cons, List.map_map]
    simpa [Function.comp_def] using ih

theorem zip_getD {α β : Type} (xs : List α) (ys : List β) (h : xs.length = ys.length)
    (i : Nat) (d : α) (e : β) :
    (xs.zip ys).getD i (d, e) = (xs.getD i d, ys.getD i e) := by
  induction xs generalizing ys i with
  | nil =>
    cases ys with
    | nil => cases i <;> rfl
    | cons y ys' => simp at h
  | cons x xs' ih =>
    cases ys with
    | nil => simp at h
    | cons y ys' =>
      cases i with
      | zero => rfl
      | succ j =>
        simp only [List.length_cons, Nat.succ.injEq] at h
        simpa [List.zip_cons_cons] using ih ys' h j

theorem parseTimeSteps_length (files : List String) (ts : List Int)
    (h : parseTimeSteps files = Except.ok ts) : ts.length = files.length := by
  induction files generalizing ts with
  | nil =>
    simp only [parseTimeSteps] at h
    cases h
    rfl
  | cons f rest ih =>
    simp only [parseTimeSteps] at h
    cases hp : pyInt (pySliceNeg f 9 3) with
    | none => rw [hp] at h; cases h
    | some n =>
      rw [hp] at h
      cases hr : parseTimeSteps rest with
      | error e => rw [hr] at h; cases h
      | ok ts' =>
        rw [hr] at h
        cases h
        simp [ih ts' hr]

theorem map_eq_map_inj_on {α β : Type} (f : α → β) (l1 l2 : List α)
    (hinj : ∀ a ∈ l1, ∀ b ∈ l2, f a = f b → a = b)
    (h : l1.map f = l2.map f) : l1 = l2 := by
  induction l1 generalizing l2 with
  | nil =>
    cases l2 with
    | nil => rfl
    | cons b l2' => simp at h
  | cons a l1' ih =>
    cases l2 with
    | nil => simp at h
    | cons b l2' =>
      simp only [List.map_cons, List.cons.injEq] at h
      have hab : a = b :=
        hinj a (List.mem_cons_self _ _) b (List.mem_cons_self _ _) h.1
      subst hab
      have := ih l2'
        (fun x hx y hy => hinj x (List.mem_cons_of_mem _ hx) y (List.mem_cons_of_mem _ hy)) h.2
      rw [this]

theorem argsort_perm_of_example (perm : List Nat)
    (h : isArgsortOf [100, 50, 200] perm) : perm = [1, 0, 2] := by
  obtain ⟨hperm, hsorted⟩ := h
  have hrange : (List.range (List.length [(100 : Int), 50, 200])).map
      (fun i => [(100 : Int), 50, 200].getD i 0) = [100, 50, 200] := map_getD_range _ 0
  have hmapperm : List.Perm (perm.map (fun i => [(100 : Int), 50, 200].getD i 0))
      ((List.range (List.length [(100 : Int), 50, 200])).map
        (fun i => [(100 : Int), 50, 200].getD i 0)) :=
    hperm.map _
  rw [hrange] at hmapperm
  have hsorted2 : List.Sorted (· ≤ ·) [(50 : Int), 100, 200] := by decide
  have hperm2 : List.Perm (perm.map (fun i => [(100 : Int), 50, 200].getD i 0))
      [50, 100, 200] :=
    hmapperm.trans (by decide)
  have heq : perm.map (fun i => [(100 : Int), 50, 200].getD i 0) = [50, 100, 200] :=
    List.eq_of_perm_of_sorted hperm2 hsorted hsorted2
  have heq2 : perm.map (fun i => [(100 : Int), 50, 200].getD i 0) =
      [1, 0, 2].map (fun i => [(100 : Int), 50, 200].getD i 0) := by
    rw [heq]; rfl
  refine map_eq_map_inj_on _ perm [1, 0, 2] ?_ heq2
  intro a ha b hb
  have ha3 : a < 3 := by
    have := hperm.mem_iff.mp ha
    simpa [List.mem_range] using this
  have hb3 : b < 3 := by
    simp only [List.mem_cons, List.mem_singleton, List.not_mem_nil, or_false] at hb
    rcases hb with rfl | rfl | rfl <;> omega
  have hd : ∀ a' < 3, ∀ b' < 3,
      [(100 : Int), 50, 200].getD a' 0 = [(100 : Int), 50, 200].getD b' 0 → a' = b' := by
    decide
  exact hd a ha3 b hb3

/-! ## Claim theorems -/

/-- C1: for every species, a derived-quantity name appears in the species'
derived_components exactly when that definition's requirement set is a
subset of components_in_file; for every definition of the registry (whose
names are distinct, it being a table keyed by name), the subset test is
necessary and sufficient for its name to be in the list computed at species
construction. -/
theorem C1_derived_availability_iff (registry : Registry) (cif : List String)
    (hnames : (registry.map DataDef.name).Nodup)
    (sn : String) (ts : List Int) (files : List String)
    (reader : String → String → List String → PDict)
    (conv : PDict → List (String × String) → Option String → PDict)
    (d : DataDef) (hd : d ∈ registry) :
    d.name ∈ (ParticleSpecies.init sn cif ts files reader conv registry).derived_components ↔
      ∀ r ∈ d.requirements, r ∈ cif := by
  show d.name ∈ determine_available_derived_components registry cif ↔ _
  unfold determine_available_derived_components
  constructor
  · intro hmem
    obtain ⟨d', hd', hname⟩ := List.mem_map.mp hmem
    obtain ⟨hd'reg, hp⟩ := List.mem_filter.mp hd'
    have hdd : d' = d := List.inj_on_of_nodup_map hnames hd'reg hd hname
    subst hdd
    intro r hr
    exact List.elem_iff.mp (List.all_eq_true.mp hp r hr)
  · intro hreq
    exact List.mem_map.mpr ⟨d, List.mem_filter.mpr
      ⟨hd, List.all_eq_true.mpr (fun r hr => List.elem_iff.mpr (hreq r hr))⟩, rfl⟩

theorem C1_witness :
    ("gamma" ∈ wSpecies.derived_components ↔ ∀ r ∈ ["px"], r ∈ ["px", "x", "tag"]) := by
  have h := C1_derived_availability_iff wRegistry ["px", "x", "tag"] (by decide)
    "electrons" [10, 20, 30] ["f10", "f20", "f30"] wReader wConv
    { name := "gamma", units := "dimensionless", requirements := ["px"], recipe := wRecipe }
    (by unfold wRegistry; exact List.mem_cons_self _ _)
  exact h

/-- C6: a call to get_data in which data_units is provided with a length
different from components_list fails immediately with the length-mismatch
error reporting both lengths, and performs no other work: the result is the
same for every data reader, unit converter, registry and time step, showing
that no file read, unit conversion or derived computation takes place. -/
theorem C6_mismatched_length_error (s : ParticleSpecies) (time_step : Int)
    (comps : List String) (us : List String) (tu : Option String)
    (reader2 : String → String → List String → PDict)
    (conv2 : PDict → List (String × String) → Option String → PDict)
    (reg2 : Registry)
    (h : comps.length ≠ us.length) :
    get_data { s with data_reader := reader2, unit_converter := conv2, registry := reg2 }
        time_step comps (some us) tu =
      Except.error (VPError.mismatchedLength comps.length us.length) := by
  simp [get_data, get_data_checks, lengthCheck, h]

theorem C6_witness :
    get_data wSpecies 10 ["px", "x"] (some ["SI"]) none =
      Except.error (VPError.mismatchedLength 2 1) := by
  have h := C6_mismatched_length_error wSpecies 10 ["px", "x"] ["SI"] none
    wReader wConv wRegistry (by decide)
  exact h

/-- C10: get_list_of_available_components returns the concatenation of
components_in_file and derived_components with "tag" removed when
include_tags is false and present, and leaves the species object unchanged
(the Python body concatenates into a fresh list, so remove cannot touch the
attributes); in particular a "tag" component in components_in_file is still
requestable through get_data after any number of calls. -/
theorem C10_available_components_fresh_list (s : ParticleSpecies) (inc : Bool) (n : Nat)
    (time_step : Int) (i : Nat) (f : String)
    (htag : "tag" ∈ s.components_in_file)
    (hidx : pyListIndex s.timesteps time_step = some i)
    (hf : s.species_files.get? i = some f) :
    repeatCalls inc n s = s ∧
    (get_list_of_available_components s inc).2 = s ∧
    (get_list_of_available_components s inc).1 =
      (if inc = false ∧ "tag" ∈ s.components_in_file ++ s.derived_components then
        (s.components_in_file ++ s.derived_components).erase "tag"
      else s.components_in_file ++ s.derived_components) ∧
    get_data (repeatCalls inc n s) time_step ["tag"] none none =
      Except.ok (s.data_reader f s.species_name ["tag"]) := by
  have hrep : repeatCalls inc n s = s := by
    induction n with
    | zero => rfl
    | succ m ih => exact ih
  refine ⟨hrep, rfl, rfl, ?_⟩
  rw [hrep]
  have hsplit : split_comps s [("tag", none)] = Except.ok ([("tag", none)], []) :=
    split_comps_all_raw s _ (by
      intro p hp
      simp only [List.mem_singleton] at hp
      rw [hp]
      exact htag)
  rw [List.get?_eq_getElem?] at hf
  simp [get_data, get_data_checks, lengthCheck, pairUnits, hsplit, get_file_path, hidx, hf,
    get_data_core, unitsOf, get_file_data, convert_data_units, calculate_derived_data,
    derived_entries, pyDictMerge_nil_right]

theorem C10_witness :
    repeatCalls false 3 wSpecies = wSpecies ∧
    (get_list_of_available_components wSpecies false).2 = wSpecies ∧
    (get_list_of_available_components wSpecies false).1 =
      (if false = false ∧ "tag" ∈ wSpecies.components_in_file ++ wSpecies.derived_components then
        (wSpecies.components_in_file ++ wSpecies.derived_components).erase "tag"
      else wSpecies.components_in_file ++ wSpecies.derived_components) ∧
    get_data (repeatCalls false 3 wSpecies) 20 ["tag"] none none =
      Except.ok (wSpecies.data_reader "f20" wSpecies.species_name ["tag"]) := by
  have h := C10_available_components_fresh_list wSpecies false 3 20 1 "f20"
    (by decide) (by decide) (by decide)
  exact h

/-- C4: for a call whose components are all available and whose data-units
length precondition holds, a time step absent from timesteps makes get_data
fail with the time-step-not-found error, and a present time step resolves to
the species file stored at the positional index of its first occurrence in
timesteps, after which get_data proceeds exactly as with that file given. -/
theorem C4_time_step_resolution (s : ParticleSpecies) (time_step : Int)
    (comps : List String) (du : Option (List String)) (tu : Option String)
    (hall : ∀ c ∈ comps, c ∈ s.components_in_file ∨ c ∈ s.derived_components)
    (hlen : ∀ us, du = some us → comps.length = us.length) :
    (time_step ∉ s.timesteps →
      get_data s time_step comps du tu = Except.error (VPError.timeStepNotFound time_step)) ∧
    (∀ i f, pyListIndex s.timesteps time_step = some i → s.species_files.get? i = some f →
      get_file_path s time_step = Except.ok f ∧
      get_data s time_step comps du tu = get_data_resolved s f comps du tu) := by
  have hlc : lengthCheck comps du = none := by
    cases du with
    | none => rfl
    | some us => simp [lengthCheck, hlen us rfl]
  obtain ⟨r, d, hsplit⟩ := split_comps_ok_of_available s (pairUnits comps du)
    (fun p hp => hall p.1 (pairUnits_fst_mem comps du p hp))
  constructor
  · intro hts
    have hnone : pyListIndex s.timesteps time_step = none :=
      (pyListIndex_eq_none_iff _ _).mpr hts
    simp [get_data, get_data_checks, hlc, hsplit, get_file_path, hnone]
  · intro i f hi hf
    rw [List.get?_eq_getElem?] at hf
    constructor
    · simp [get_file_path, hi, hf]
    · simp [get_data, get_data_resolved, get_data_checks, hlc, hsplit, get_file_path, hi, hf]

theorem C4_witness :
    get_data wSpecies 999 ["px"] none none =
      Except.error (VPError.timeStepNotFound 999) :=
  (C4_time_step_resolution wSpecies 999 ["px"] none none
    (by intro c hc; simp only [List.mem_singleton] at hc; subst hc; left; decide)
    (by intro us h; cases h)).1 (by decide)

/-- C5: a get_data call whose components list contains a name that is in
neither components_in_file nor derived_components fails with the
unknown-component error carrying the first such name together with the
currently available components, which are the raw plus derived components
with the internal "tag" entry removed since the error path never requests
tags. -/
theorem C5_unknown_component_error (s : ParticleSpecies) (time_step : Int)
    (comps : List String) (du : Option (List String)) (tu : Option String) (c : String)
    (hlen : ∀ us, du = some us → comps.length = us.length)
    (hfind : comps.find?
        (fun x => !(s.components_in_file.contains x || s.derived_components.contains x)) =
      some c) :
    get_data s time_step comps du tu =
      Except.error (VPError.unknownComponent c (get_list_of_available_components s false).1) ∧
    (get_list_of_available_components s false).1 =
      (if "tag" ∈ s.components_in_file ++ s.derived_components then
        (s.components_in_file ++ s.derived_components).erase "tag"
      else s.components_in_file ++ s.derived_components) := by
  constructor
  · have hsplit := split_comps_first_unknown s (pairUnits comps du) c
      (by rw [pairUnits_map_fst comps du hlen]; exact hfind)
    have hlc : lengthCheck comps du = none := by
      cases du with
      | none => rfl
      | some us => simp [lengthCheck, hlen us rfl]
    simp [get_data, get_data_checks, hlc, hsplit]
  · simp [get_list_of_available_components]

theorem C5_witness :
    get_data wSpecies 10 ["px", "nope"] none none =
      Except.error (VPError.unknownComponent "nope" ["px", "x", "gamma"]) :=
  (C5_unknown_component_error wSpecies 10 ["px", "nope"] none none "nope"
    (by intro us h; cases h) (by decide)).1

/-- C9: a get_data call for raw components only, with data_units omitted,
returns exactly the reader's output for the resolved file: the key set is
exactly the requested components (by the reader interface contract) and each
metadata dictionary is the one the reader produced, units entry included,
with no unit conversion applied. -/
theorem C9_all_raw_components_native_units (s : ParticleSpecies) (time_step : Int)
    (comps : List String) (tu : Option String) (file_path : String)
    (hall : ∀ c ∈ comps, c ∈ s.components_in_file)
    (hfp : get_file_path s time_step = Except.ok file_path)
    (hreader : ∀ fp n cs, dictKeys (s.data_reader fp n cs) = cs) :
    get_data s time_step comps none tu =
      Except.ok (s.data_reader file_path s.species_name comps) ∧
    (∀ k, k ∈ dictKeys (s.data_reader file_path s.species_name comps) ↔ k ∈ comps) := by
  constructor
  · have hsplit : split_comps s (pairUnits comps none) =
        Except.ok (pairUnits comps none, []) :=
      split_comps_all_raw s _ (fun p hp => hall p.1 (pairUnits_fst_mem comps none p hp))
    have hfst : (pairUnits comps none).map Prod.fst = comps :=
      pairUnits_map_fst comps none (by intro us h; cases h)
    simp [get_data, get_data_checks, lengthCheck, hsplit, hfp, get_data_core, unitsOf, hfst,
      get_file_data, convert_data_units, calculate_derived_data, derived_entries,
      pyDictMerge_nil_right]
  · intro k
    rw [hreader]

theorem C9_witness :
    get_data wSpecies 20 ["px", "x"] none none =
      Except.ok [("px", ([42], [("units", "m_e*c")])), ("x", ([42], [("units", "m_e*c")]))] ∧
    ("px" ∈ dictKeys (wSpecies.data_reader "f20" wSpecies.species_name ["px", "x"])) := by
  have h := C9_all_raw_components_native_units wSpecies 20 ["px", "x"] none "f20"
    (by intro c hc
        simp only [List.mem_cons, List.mem_singleton, List.not_mem_nil, or_false] at hc
        rcases hc with rfl | rfl <;> decide)
    (by decide)
    (by intro fp n cs
        show dictKeys (cs.map (fun c => (c, ([42], [("units", "m_e*c")])))) = cs
        simp [dictKeys, Function.comp_def])
  exact ⟨h.1, (h.2 "px").mpr (by decide)⟩

/-- C3: for a requested derived component, get_data fetches the definition's
requirements from the resolved file with the fixed unit list ['SI', ...]
(one 'SI' per requirement, independent of whatever data_units the caller
supplied for the derived component, as the fetch expression below contains
no occurrence of the caller's units), and the caller's target units are
applied by the final conversion only after the recipe has produced the
derived array. -/
theorem C3_derived_requirements_fetched_in_SI (s : ParticleSpecies) (time_step : Int)
    (c : String) (d : DataDef) (du : Option (List String)) (u0 : String) (tu : Option String)
    (file_path r0 : String) (rs : List String) (a0 : List Int) (md0 : Metadata)
    (hdu : du = none ∨ du = some [u0])
    (hraw : c ∉ s.components_in_file) (hder : c ∈ s.derived_components)
    (hfp : get_file_path s time_step = Except.ok file_path)
    (hdef : get_definition s.registry c = Except.ok d)
    (hreq : d.requirements = r0 :: rs)
    (hmd : dictLookup (get_file_data s file_path d.requirements
        (some (List.replicate d.requirements.length "SI")) tu) r0 = some (a0, md0))
    (hreader : dictKeys (s.data_reader file_path s.species_name []) = [])
    (hconv : s.unit_converter [] [] tu = []) :
    get_data s time_step [c] du tu =
      Except.ok (convert_data_units s
        [(d.name, (d.recipe (get_file_data s file_path d.requirements
            (some (List.replicate d.requirements.length "SI")) tu),
          dictSet md0 "units" d.units))] [c] du tu) := by
  rw [hreq] at hmd ⊢
  simp only [get_file_data, convert_data_units, List.length_cons] at hmd
  have hrd : s.data_reader file_path s.species_name [] = [] := dictKeys_eq_nil _ hreader
  rcases hdu with rfl | rfl
  · have hsplit : split_comps s [(c, none)] = Except.ok ([], [(c, none)]) := by
      simp [split_comps, hraw, hder]
    simp [get_data, get_data_checks, lengthCheck, pairUnits, hsplit, hfp, get_data_core,
      unitsOf, get_file_data, convert_data_units, hrd, calculate_derived_data,
      derived_entries, hdef, hreq, hmd, pyDictMerge_nil_left]
  · have hsplit : split_comps s [(c, some u0)] = Except.ok ([], [(c, some u0)]) := by
      simp [split_comps, hraw, hder]
    simp [get_data, get_data_checks, lengthCheck, pairUnits, hsplit, hfp, get_data_core,
      unitsOf, get_file_data, convert_data_units, hrd, hconv, calculate_derived_data,
      derived_entries, hdef, hreq, hmd, pyDictMerge_nil_left]

theorem C3_witness :
    get_data wSpecies 10 ["gamma"] (some ["other_units"]) none =
      Except.ok (convert_data_units wSpecies
        [("gamma", (wRecipe (get_file_data wSpecies "f10" ["px"]
            (some (List.replicate 1 "SI")) none),
          dictSet [("units", "m_e*c")] "units" "dimensionless"))] ["gamma"]
        (some ["other_units"]) none) := by
  have h := C3_derived_requirements_fetched_in_SI wSpecies 10 "gamma"
    { name := "gamma", units := "dimensionless", requirements := ["px"], recipe := wRecipe }
    (some ["other_units"]) "other_units" none "f10" "px" [] [42] [("units", "m_e*c")]
    (Or.inr rfl) (by decide) (by decide) (by decide) rfl rfl (by decide) (by decide) rfl
  exact h

/-- C8: the metadata of a derived component computed by get_data (with no
caller units requested, so that the final conversion is the identity) is the
metadata fetched for the first requirement with its "units" entry overwritten
by the definition's declared output units: the units key reads the declared
units and every other key reads exactly as in the first requirement's fetched
metadata. -/
theorem C8_derived_metadata_inheritance (s : ParticleSpecies) (time_step : Int)
    (c : String) (d : DataDef) (tu : Option String)
    (file_path r0 : String) (rs : List String) (a0 : List Int) (md0 : Metadata)
    (hraw : c ∉ s.components_in_file) (hder : c ∈ s.derived_components)
    (hfp : get_file_path s time_step = Except.ok file_path)
    (hdef : get_definition s.registry c = Except.ok d)
    (hreq : d.requirements = r0 :: rs)
    (hmd : dictLookup (get_file_data s file_path d.requirements
        (some (List.replicate d.requirements.length "SI")) tu) r0 = some (a0, md0))
    (hreader : dictKeys (s.data_reader file_path s.species_name []) = []) :
    get_data s time_step [c] none tu =
      Except.ok [(d.name, (d.recipe (get_file_data s file_path d.requirements
          (some (List.replicate d.requirements.length "SI")) tu),
        dictSet md0 "units" d.units))] ∧
    dictLookup (dictSet md0 "units" d.units) "units" = some d.units ∧
    (∀ k, k ≠ "units" → dictLookup (dictSet md0 "units" d.units) k = dictLookup md0 k) := by
  refine ⟨?_, dictLookup_dictSet_self md0 "units" d.units,
    fun k hk => dictLookup_dictSet_ne md0 "units" k d.units hk⟩
  rw [hreq] at hmd ⊢
  simp only [get_file_data, convert_data_units, List.length_cons] at hmd
  have hrd : s.data_reader file_path s.species_name [] = [] := dictKeys_eq_nil _ hreader
  have hsplit : split_comps s [(c, none)] = Except.ok ([], [(c, none)]) := by
    simp [split_comps, hraw, hder]
  simp [get_data, get_data_checks, lengthCheck, pairUnits, hsplit, hfp, get_data_core,
    unitsOf, get_file_data, convert_data_units, hrd, calculate_derived_data,
    derived_entries, hdef, hreq, hmd, pyDictMerge_nil_left]

theorem C8_witness :
    get_data wSpecies 10 ["gamma"] none none =
      Except.ok [("gamma", ([7], [("units", "dimensionless")]))] ∧
    dictLookup [("units", "dimensionless")] "units" = some "dimensionless" := by
  have h := C8_derived_metadata_inheritance wSpecies 10 "gamma"
    { name := "gamma", units := "dimensionless", requirements := ["px"], recipe := wRecipe }
    none "f10" "px" [] [42] [("units", "m_e*c")]
    (by decide) (by decide) (by decide) rfl rfl (by decide) (by decide)
  refine ⟨?_, by decide⟩
  have h1 := h.1
  exact h1

/-- C7 counterexample: the claim reads the transformation as stripping an
optional trailing "-savg" suffix before the table lookup, but the source
applies str.replace, which removes every occurrence of "-savg" anywhere in
the name.  On the folder name "e-savg1" the two differ: the name has no
"-savg" suffix and is not in the table, so the claim's reading fails with
UnknownFieldName, while the code removes the inner occurrence, looks up
"e1" and returns "Ez". -/
theorem C7_counterexample :
    get_standard_visualpic_name (get_osiris_field_name "e-savg1") = Except.ok "Ez" ∧
    standard_name_claim "e-savg1" =
      Except.error (VPError.unknownFieldName "e-savg1") ∧
    get_standard_visualpic_name (get_osiris_field_name "e-savg1") ≠
      standard_name_claim "e-savg1" := by
  decide

/-- C7 (amended): for every on-disk field folder name, the scanner removes
every non-overlapping occurrence of "-savg" anywhere in the name (str.replace
semantics, which in particular strips a trailing "-savg" decoration) and then
maps the result through the fixed table e1/e2/e3/b1/b2/b3/charge to
Ez/Ex/Ey/Bz/Bx/By/rho; "e1-savg" standardizes to "Ez", and a replaced name
absent from the table makes the scan fail with the UnknownFieldName error. -/
theorem C7_field_name_standardization :
    get_standard_visualpic_name (get_osiris_field_name "e1-savg") = Except.ok "Ez" ∧
    get_standard_visualpic_name (get_osiris_field_name "charge") = Except.ok "rho" ∧
    get_standard_visualpic_name (get_osiris_field_name "b3-savg") = Except.ok "By" ∧
    get_standard_visualpic_name (get_osiris_field_name "psi") =
      Except.error (VPError.unknownFieldName "psi") ∧
    ∀ folder_name : String,
      (∀ v, get_standard_visualpic_name (get_osiris_field_name folder_name) = Except.ok v ↔
        dictLookup name_relations (pyReplace folder_name "-savg" "") = some v) ∧
      (get_standard_visualpic_name (get_osiris_field_name folder_name) =
          Except.error (VPError.unknownFieldName (pyReplace folder_name "-savg" "")) ↔
        dictLookup name_relations (pyReplace folder_name "-savg" "") = none) := by
  refine ⟨by decide, by decide, by decide, by decide, fun folder_name => ⟨fun v => ?_, ?_⟩⟩
  · unfold get_standard_visualpic_name get_osiris_field_name
    cases h : dictLookup name_relations (pyReplace folder_name "-savg" "") <;> simp [h]
  · unfold get_standard_visualpic_name get_osiris_field_name
    cases h : dictLookup name_relations (pyReplace folder_name "-savg" "") <;> simp [h]

/-- C2 counterexample: the claim asserts a stable sort, ties keeping the
original listing order.  np.argsort is called with its default kind
(quicksort), whose contract guarantees only a sorting permutation, not
stability; the permutation [1, 0] is such a permitted result on the tied
keys [100, 100], and under it the two files with equal time-step tokens come
out in the opposite of their listing order. -/
theorem C2_counterexample :
    isArgsortOf [100, 100] [1, 0] ∧
    get_files_and_timesteps "sim" ["b_000100.h5", "a_000100.h5"] [1, 0] =
      Except.ok (["sim/a_000100.h5", "sim/b_000100.h5"], [100, 100]) ∧
    ["sim/a_000100.h5", "sim/b_000100.h5"] ≠ ["sim/b_000100.h5", "sim/a_000100.h5"] := by
  refine ⟨⟨by decide, by decide⟩, by decide, by decide⟩

/-- C2 (amended): for every field folder, _get_files_and_timesteps selects
exactly the files with the .h5 extension, parses the time-step token from
the fixed slice [-9:-3] of each file path, and returns files and time steps
jointly reordered by one argsort permutation of the parsed values, so the
time steps come out ascending and the file list is reordered identically
(joint alignment); the relative order of equal time steps is whatever the
non-stable default argsort yields.  For the input files field_000100.h5,
field_000050.h5, field_000200.h5 the parsed keys are distinct, the sorting
permutation is unique, and every permitted run returns time steps
[50, 100, 200] with the file list reordered identically. -/
theorem C2_files_and_timesteps (folder : String) (all_files : List String)
    (perm : List Nat) (ts : List Int)
    (hparse : parseTimeSteps (h5Files folder all_files) = Except.ok ts)
    (hsort : isArgsortOf ts perm) :
    (∃ fs2 ts2,
      get_files_and_timesteps folder all_files perm = Except.ok (fs2, ts2) ∧
      ts2.Sorted (· ≤ ·) ∧
      List.Perm ts2 ts ∧
      List.Perm fs2 (h5Files folder all_files) ∧
      fs2.zip ts2 = applyPerm ((h5Files folder all_files).zip ts) perm ("", 0)) ∧
    (∀ perm2, isArgsortOf [100, 50, 200] perm2 →
      get_files_and_timesteps "sim"
          ["field_000100.h5", "field_000050.h5", "field_000200.h5"] perm2 =
        Except.ok (["sim/field_000050.h5", "sim/field_000100.h5", "sim/field_000200.h5"],
          [50, 100, 200])) := by
  constructor
  · obtain ⟨hperm, hsorted⟩ := hsort
    have hlen : ts.length = (h5Files folder all_files).length :=
      parseTimeSteps_length _ _ hparse
    refine ⟨applyPerm (h5Files folder all_files) perm "", applyPerm ts perm 0, ?_, hsorted,
      ?_, ?_, ?_⟩
    · simp only [get_files_and_timesteps]
      rw [hparse]
    · have h1 := hperm.map (fun i => ts.getD i 0)
      rw [map_getD_range ts 0] at h1
      exact h1
    · have h2 := hperm.map (fun i => (h5Files folder all_files).getD i "")
      rw [hlen, map_getD_range (h5Files folder all_files) ""] at h2
      exact h2
    · unfold applyPerm
      rw [List.zip_map']
      exact List.map_congr_left (fun i _ => (zip_getD _ _ hlen.symm i "" 0).symm)
  · intro perm2 h2
    have hp2 : perm2 = [1, 0, 2] := argsort_perm_of_example perm2 h2
    subst hp2
    decide

theorem C2_witness :
    ∃ fs2 ts2,
      get_files_and_timesteps "sim"
          ["field_000100.h5", "field_000050.h5", "field_000200.h5"] [1, 0, 2] =
        Except.ok (fs2, ts2) ∧
      ts2.Sorted (· ≤ ·) ∧
      List.Perm ts2 [100, 50, 200] ∧
      List.Perm fs2 (h5Files "sim" ["field_000100.h5", "field_000050.h5", "field_000200.h5"]) ∧
      fs2.zip ts2 =
        applyPerm ((h5Files "sim"
            ["field_000100.h5", "field_000050.h5", "field_000200.h5"]).zip [100, 50, 200])
          [1, 0, 2] ("", 0) :=
  (C2_files_and_timesteps "sim" ["field_000100.h5", "field_000050.h5", "field_000200.h5"]
    [1, 0, 2] [100, 50, 200] (by decide) ⟨by decide, by decide⟩).1
